import Mathlib

/-!
Verification development for the vehicle-telemetry conversion scripts:
the message-tree serializer, the time-windowed extractor, the derived-stream
synthesizer and the signal-table decoder. Python values are embedded as a
closed tagged-variant type; machine floats are embedded as rationals where
the computations involved are exact, and as reals for the trigonometric
quaternion construction.
-/

/-- Embedding of the Python values the scripts operate on: scalars
(int, float, str, bool, None), raw byte strings, lists, dicts with string
keys, and ROS message objects. An object slot carrying `none` models an
attribute whose read raises (`getattr` fails). -/
inductive PyVal : Type where
  | pint : Int → PyVal
  | pfloat : Rat → PyVal
  | pstr : String → PyVal
  | pbool : Bool → PyVal
  | pnone : PyVal
  | pbytes : List Nat → PyVal
  | plist : List PyVal → PyVal
  | pdict : List (String × PyVal) → PyVal
  | obj : List (String × Option PyVal) → PyVal

/-- `hasattr(value, '__slots__')`: the value is a ROS message object. -/
def hasSlots : PyVal → Bool
  | .obj _ => true
  | _ => false

/-- `isinstance(value, bytes)`. -/
def isBytesV : PyVal → Bool
  | .pbytes _ => true
  | _ => false

/-- `isinstance(value, dict)`. -/
def isDictV : PyVal → Bool
  | .pdict _ => true
  | _ => false

/-- `isinstance(value, list)`. -/
def isListV : PyVal → Bool
  | .plist _ => true
  | _ => false

/-- The base64 alphabet used by `base64.b64encode`. -/
def b64chars : List Char :=
  "ABCDEFGHIJKLMNOPQRSTUVWXYZabcdefghijklmnopqrstuvwxyz0123456789+/".toList

/-- One base64 output character for a 6-bit group. -/
def b64char (n : Nat) : Char := b64chars.getD n 'A'

/-- Standard base64 encoding of a byte list, 3 bytes at a time with
`=` padding. -/
def b64encodeGo : List Nat → List Char
  | [] => []
  | [a] => [b64char (a / 4), b64char (a % 4 * 16), '=', '=']
  | [a, b] => [b64char (a / 4), b64char (a % 4 * 16 + b / 16), b64char (b % 16 * 4), '=']
  | a :: b :: c :: rest =>
      b64char (a / 4) :: b64char (a % 4 * 16 + b / 16) ::
      b64char (b % 16 * 4 + c / 64) :: b64char (c % 64) :: b64encodeGo rest

/-- `base64.b64encode(bs).decode('utf-8')`. -/
def b64encode (bs : List Nat) : String := String.mk (b64encodeGo bs)

/-- The tagged node the serializer emits for a raw byte payload:
`{'_type': 'bytes', '_data': base64}`. -/
def bytesNode (bs : List Nat) : PyVal :=
  .pdict [("_type", .pstr "bytes"), ("_data", .pstr (b64encode bs))]

/-- The error raised when reading a named field of a record fails
(an `AttributeError` escaping `getattr`). -/
inductive FieldAccessError : Type where
  | fieldAccess : FieldAccessError
deriving DecidableEq

mutual

/-- `message_to_dict` of rosbag_parser: converts one opaque record to the
canonical tree. Branch order follows the source: bytes, slotted object,
dict, list, else scalar pass-through. Reading a failing slot raises. -/
def message_to_dict : PyVal → Except FieldAccessError PyVal
  | .pbytes bs => .ok (bytesNode bs)
  | .obj slots => do
      let es ← m2dSlots slots
      .ok (.pdict es)
  | .pdict entries => do
      let es ← m2dDictEntries entries
      .ok (.pdict es)
  | .plist items => do
      let xs ← m2dTopItems items
      .ok (.plist xs)
  | v => .ok v
termination_by t => (sizeOf t, 0)

/-- The slot loop of `message_to_dict`: `getattr` on each declared slot in
order; a failing read raises and aborts the whole conversion. -/
def m2dSlots : List (String × Option PyVal) → Except FieldAccessError (List (String × PyVal))
  | [] => .ok []
  | (_, none) :: _ => .error .fieldAccess
  | (slot, some v) :: rest => do
      let v2 ← m2dSlotValue v
      let rest2 ← m2dSlots rest
      .ok ((slot, v2) :: rest2)
termination_by l => (sizeOf l, 0)

/-- Conversion of one slot value: bytes are tagged, nested objects recurse,
lists map over `m2dInnerItems`, everything else passes unchanged. -/
def m2dSlotValue : PyVal → Except FieldAccessError PyVal
  | .pbytes bs => .ok (bytesNode bs)
  | .obj slots => message_to_dict (.obj slots)
  | .plist items => do
      let xs ← m2dInnerItems items
      .ok (.plist xs)
  | v => .ok v
termination_by v => (sizeOf v, 1)

/-- Elements of a list stored in a slot: only slotted objects and byte
strings are serialized; every other element passes through unchanged. -/
def m2dInnerItems : List PyVal → Except FieldAccessError (List PyVal)
  | [] => .ok []
  | item :: rest => do
      let x ← if hasSlots item || isBytesV item then message_to_dict item else .ok item
      let xs ← m2dInnerItems rest
      .ok (x :: xs)
termination_by l => (sizeOf l, 0)

/-- Elements of a top-level list: slotted objects, dicts and byte strings
are serialized; other elements pass through unchanged. -/
def m2dTopItems : List PyVal → Except FieldAccessError (List PyVal)
  | [] => .ok []
  | item :: rest => do
      let x ← if hasSlots item || isDictV item || isBytesV item then message_to_dict item else .ok item
      let xs ← m2dTopItems rest
      .ok (x :: xs)
termination_by l => (sizeOf l, 0)

/-- Values of a top-level dict: dicts, lists, byte strings and slotted
objects are serialized; plain scalar values pass through unchanged. -/
def m2dDictEntries : List (String × PyVal) → Except FieldAccessError (List (String × PyVal))
  | [] => .ok []
  | (k, v) :: rest => do
      let v2 ← if isDictV v || isListV v || isBytesV v || hasSlots v then message_to_dict v else .ok v
      let rest2 ← m2dDictEntries rest
      .ok ((k, v2) :: rest2)
termination_by l => (sizeOf l, 0)

end

mutual

/-- `TestDataPublisher.message_to_dict`: the publisher-side serializer.
Every slot read sits in a `try` block; a failing read is skipped
(`continue`), so the conversion is total. Dicts are returned unchanged. -/
def tdp_message_to_dict : PyVal → PyVal
  | .obj slots => .pdict (tdpSlots slots)
  | .pdict entries => .pdict entries
  | v => v
termination_by t => (sizeOf t, 0)

/-- The guarded slot loop of the publisher serializer: an unreadable slot
is omitted and the loop continues with the next slot. -/
def tdpSlots : List (String × Option PyVal) → List (String × PyVal)
  | [] => []
  | (_, none) :: rest => tdpSlots rest
  | (slot, some v) :: rest => (slot, tdpSlotValue v) :: tdpSlots rest
termination_by l => (sizeOf l, 0)

/-- One slot value in the publisher serializer: nested objects recurse,
lists map over their slotted elements, everything else passes unchanged. -/
def tdpSlotValue : PyVal → PyVal
  | .obj slots => tdp_message_to_dict (.obj slots)
  | .plist items => .plist (tdpItems items)
  | v => v
termination_by v => (sizeOf v, 1)

/-- List elements in the publisher serializer: only slotted objects are
serialized recursively; other elements pass through unchanged. -/
def tdpItems : List PyVal → List PyVal
  | [] => []
  | item :: rest =>
      (if hasSlots item then tdp_message_to_dict item else item) :: tdpItems rest
termination_by l => (sizeOf l, 0)

end

/-- The field names of a serialized composite. -/
def resultKeys : PyVal → List String
  | .pdict entries => entries.map Prod.fst
  | _ => []

/-- A canonical tree as produced by the serializer: any nesting of
Composite (dict), Sequence (list), Scalar and Bytes nodes, where a Bytes
node is the tagged dict the serializer emits. -/
inductive IsCanonical : PyVal → Prop where
  | scalarInt : ∀ n, IsCanonical (.pint n)
  | scalarFloat : ∀ q, IsCanonical (.pfloat q)
  | scalarStr : ∀ s, IsCanonical (.pstr s)
  | scalarBool : ∀ b, IsCanonical (.pbool b)
  | scalarNone : IsCanonical .pnone
  | bytes : ∀ bs, IsCanonical (bytesNode bs)
  | seq : ∀ items, (∀ v ∈ items, IsCanonical v) → IsCanonical (.plist items)
  | comp : ∀ entries, (∀ p ∈ entries, IsCanonical p.2) → IsCanonical (.pdict entries)

/-- A ROS time value as the extractor receives it: an object with
`secs`/`nsecs` attributes, a dict with optional `secs`/`nsecs` keys, or a
plain seconds number. -/
inductive RosTime : Type where
  | timeObj : Rat → Rat → RosTime
  | timeDict : Option Rat → Option Rat → RosTime
  | timeFloat : Rat → RosTime

/-- Python `int(...)` applied to a number: truncation toward zero. -/
def pyInt (q : Rat) : Int := if 0 ≤ q then ⌊q⌋ else ⌈q⌉

/-- `ros_time_to_timestamp` of rosbag_parser: milliseconds via `int(...)`
over the three input shapes, with missing dict keys defaulting to 0. -/
def ros_time_to_timestamp : RosTime → Int
  | .timeObj secs nsecs => pyInt (secs * 1000 + nsecs / 1000000)
  | .timeDict secs? nsecs? => pyInt (secs?.getD 0 * 1000 + nsecs?.getD 0 / 1000000)
  | .timeFloat s => pyInt (s * 1000)

/-- The seconds component of a ROS time value. -/
def rosSeconds : RosTime → Rat
  | .timeObj secs _ => secs
  | .timeDict secs? _ => secs?.getD 0
  | .timeFloat s => s

/-- The nanoseconds component of a ROS time value. -/
def rosNanos : RosTime → Rat
  | .timeObj _ nsecs => nsecs
  | .timeDict _ nsecs? => nsecs?.getD 0
  | .timeFloat _ => 0

/-- One `(topic, msg, t)` triple of the ordered record source, with the
record time in seconds. -/
structure BagRecord : Type where
  topic : String
  msg : PyVal
  t : Rat

/-- Lower timestamp filter of `read_messages`: absent means no filter. -/
def timeLB (s? : Option Rat) (t : Rat) : Bool :=
  match s? with
  | none => true
  | some s => decide (s ≤ t)

/-- Upper timestamp filter of `read_messages`: absent means no filter. -/
def timeUB (e? : Option Rat) (t : Rat) : Bool :=
  match e? with
  | none => true
  | some e => decide (t ≤ e)

/-- `bag.read_messages(topics=[...], start_time=..., end_time=...)`. -/
def readMessages (recs : List BagRecord) (topics : List String)
    (s? e? : Option Rat) : List BagRecord :=
  recs.filter (fun r => topics.contains r.topic && timeLB s? r.t && timeUB e? r.t)

/-- The bound actually forwarded to the record source: the Python code
forwards `Time.from_sec(bound)` only when the bound is truthy, so `None`
and `0` both forward no filter. -/
def truthyTime (x? : Option Rat) : Option Rat :=
  match x? with
  | none => none
  | some v => if v = 0 then none else some v

/-- One extracted record of `extract_topic`. -/
structure ExtractedRecord : Type where
  timestamp : Int
  topic : String
  message : PyVal

/-- `extract_topic` of rosbag_parser, modulo file output: filter by topic
and by the forwarded (truthy) time bounds, then serialize each record. -/
def extract_topic (recs : List BagRecord) (topicName : String)
    (s? e? : Option Rat) : Except FieldAccessError (List ExtractedRecord) :=
  (readMessages recs [topicName] (truthyTime s?) (truthyTime e?)).mapM
    (fun r => (message_to_dict r.msg).map
      (fun d => ⟨ros_time_to_timestamp (.timeFloat r.t), r.topic, d⟩))

/-- One per-topic output record of `extract_all_topics`. -/
structure TopicFileRecord : Type where
  timestamp : Int
  message : PyVal

/-- The per-topic loop body of `extract_all_topics`, for one topic: same
truthiness-gated time bounds as `extract_topic`. -/
def extract_all_topics_for (recs : List BagRecord) (topicName : String)
    (s? e? : Option Rat) : Except FieldAccessError (List TopicFileRecord) :=
  (readMessages recs [topicName] (truthyTime s?) (truthyTime e?)).mapM
    (fun r => (message_to_dict r.msg).map
      (fun d => ⟨ros_time_to_timestamp (.timeFloat r.t), d⟩))

/-- `hasattr(v, name)`: the value is an object and the named attribute can
actually be read (Python's `hasattr` swallows the failing `getattr`). -/
def hasattrV (v : PyVal) (name : String) : Bool :=
  match v with
  | .obj slots => slots.any (fun p => p.1 == name && p.2.isSome)
  | _ => false

/-- `getattr(v, name, d)`: the attribute value when readable, else `d`. -/
def getattrOr (v : PyVal) (name : String) (d : PyVal) : PyVal :=
  match v with
  | .obj slots =>
      match slots.find? (fun p => p.1 == name) with
      | some (_, some x) => x
      | _ => d
  | _ => d

/-- `v.name`, used only under a `hasattr` guard in the source. -/
def getattrRaw (v : PyVal) (name : String) : PyVal := getattrOr v name .pnone

/-- The per-record body of `extract_navsatfix_to_gps`: a point is emitted
only when both `latitude` and `longitude` are present; `altitude` defaults
to 0.0; the `status` entry is an empty dict when the record has no
`status` attribute, else a dict with `status` defaulting to -1 and
`service` defaulting to 0. -/
def extract_navsatfix_point (ts : Int) (msg : PyVal) : Option PyVal :=
  if hasattrV msg "latitude" && hasattrV msg "longitude" then
    some (.pdict
      [("timestamp", .pint ts),
       ("latitude", getattrRaw msg "latitude"),
       ("longitude", getattrRaw msg "longitude"),
       ("altitude", getattrOr msg "altitude" (.pfloat 0)),
       ("status",
         if hasattrV msg "status" then
           .pdict
             [("status",
               if hasattrV msg "status" then
                 getattrOr (getattrRaw msg "status") "status" (.pint (-1))
               else .pint (-1)),
              ("service",
               if hasattrV msg "status" then
                 getattrOr (getattrRaw msg "status") "service" (.pint 0)
               else .pint 0)]
         else .pdict [])])
  else none

/-- One entry of the publisher's `path_history`: timestamp, planar
position and orientation quaternion, all exact rationals. -/
structure TrajPoint : Type where
  timestamp : Rat
  x : Rat
  y : Rat
  z : Rat
  qw : Rat
  qx : Rat
  qy : Rat
  qz : Rat
deriving DecidableEq

/-- `self.path_history.append({...})`: the only mutation of the history. -/
def historyStep (h : List TrajPoint) (p : TrajPoint) : List TrajPoint := h ++ [p]

/-- The history after a run of accepted navigation records, starting from
the empty list created in `__init__`. -/
def historyAfter (ps : List TrajPoint) : List TrajPoint :=
  List.foldl historyStep [] ps

/-- Python's `l[-n:]`: the last `min n (length l)` elements. -/
def lastN (n : Nat) (l : List TrajPoint) : List TrajPoint :=
  l.drop (l.length - n)

/-- `TestDataPublisher.generate_path`: `None` when fewer than 2 points are
in the history, else the most recent 100 points in order. -/
def generate_path (h : List TrajPoint) : Option (List TrajPoint) :=
  if h.length < 2 then none else some (lastN 100 h)

/-- The snapshot-emission step run right after a point is appended:
a path is built only when the history length is a multiple of 10, and
published only when `generate_path` returned one. -/
def stepEmit (h : List TrajPoint) : Option (List TrajPoint) :=
  if h.length % 10 = 0 then generate_path h else none

/-- The path snapshot emitted (if any) while processing the `k`-th
accepted navigation record of the run `ps`. -/
def emittedAt (ps : List TrajPoint) (k : Nat) : Option (List TrajPoint) :=
  stepEmit (historyAfter (ps.take k))

/-- The orientation quaternion built by `convert_devpvt_to_odometry`. -/
structure Quat : Type where
  w : Real
  x : Real
  y : Real
  z : Real

/-- The Euler-to-quaternion half-angle composition of
`convert_devpvt_to_odometry`, with floats idealized as reals. -/
noncomputable def quatOfEuler (roll pitch yaw : Real) : Quat :=
  let cy := Real.cos (yaw * 0.5)
  let sy := Real.sin (yaw * 0.5)
  let cp := Real.cos (pitch * 0.5)
  let sp := Real.sin (pitch * 0.5)
  let cr := Real.cos (roll * 0.5)
  let sr := Real.sin (roll * 0.5)
  ⟨cr * cp * cy + sr * sp * sy,
   sr * cp * cy - cr * sp * sy,
   cr * sp * cy + sr * cp * sy,
   cr * cp * sy - sr * sp * cy⟩

/-- The squared norm w²+x²+y²+z² of a quaternion. -/
noncomputable def quatNormSq (q : Quat) : Real :=
  q.w ^ 2 + q.x ^ 2 + q.y ^ 2 + q.z ^ 2

/-- Byte order of a signal. -/
inductive Endianness : Type where
  | big : Endianness
  | little : Endianness
deriving DecidableEq

/-- One named bit-field of a frame layout, as read from the definition
file: name, start bit, bit length, endianness, linear factor/offset, unit
and optional bounds, value table and comment. -/
structure SignalField : Type where
  name : String
  startBit : Nat
  length : Nat
  endianness : Endianness
  factor : Rat
  offset : Rat
  unit : String
  minimum : Option Rat
  maximum : Option Rat
  valTable : Option (List (Int × String))
  comment : Option String
deriving DecidableEq

/-- A frame layout: identifier, byte length and its ordered signals. -/
structure FrameLayout : Type where
  frameId : Nat
  name : String
  length : Nat
  signals : List SignalField
deriving DecidableEq

/-- The fatal error for a malformed frame/signal definition. -/
inductive LayoutError : Type where
  | spanExceeds : String → LayoutError
  | duplicateName : String → LayoutError
deriving DecidableEq

/-- The physical-value descriptor of one decoded signal. -/
structure DecodedField : Type where
  name : String
  factor : Rat
  offset : Rat
  unit : String
  minimum : Option Rat
  maximum : Option Rat
  valTable : Option (List (Int × String))
deriving DecidableEq

/-- First name that occurs a second time in the list, if any. -/
def firstDup : List String → Option String
  | [] => none
  | n :: rest => if rest.contains n then some n else firstDup rest

/-- Modelled from the spec: the layout validation of the signal-table
decode step. The source script `dbc-to-json.py` delegates layout loading
and validation to the external `cantools` loader, which is not part of the
repository, so the validation is modelled from the spec's words: decoding
fails with `LayoutError` when a field's bit span `startBit + length`
exceeds the frame's bit capacity `8 * length`, or when a duplicate field
name is declared within one frame; otherwise every signal is normalized to
its physical descriptor with a zero factor defaulting to 1. -/
def decode (l : FrameLayout) : Except LayoutError (List DecodedField) :=
  match l.signals.find? (fun s => decide (8 * l.length < s.startBit + s.length)) with
  | some s => .error (.spanExceeds s.name)
  | none =>
      match firstDup (l.signals.map (fun s => s.name)) with
      | some n => .error (.duplicateName n)
      | none => .ok (l.signals.map (fun (s : SignalField) => ({
            name := s.name
            factor := if s.factor = 0 then 1 else s.factor
            offset := s.offset
            unit := s.unit
            minimum := s.minimum
            maximum := s.maximum
            valTable := s.valTable } : DecodedField)))

/-- A synthetic trajectory point for concrete runs. -/
def mkPt (i : Nat) : TrajPoint :=
  { timestamp := i, x := i, y := 0, z := 0, qw := 1, qx := 0, qy := 0, qz := 0 }

/-- A concrete run of `n` accepted navigation records. -/
def mkPts (n : Nat) : List TrajPoint := (List.range n).map mkPt

/-- A one-byte frame layout declaring a 16-bit signal: its bit span
exceeds the frame capacity of 8 bits. -/
def badLayout : FrameLayout :=
  { frameId := 1, name := "M", length := 1,
    signals := [{ name := "S", startBit := 0, length := 16,
                  endianness := .little, factor := 1, offset := 0, unit := "",
                  minimum := none, maximum := none, valTable := none,
                  comment := none }] }

/-- A concrete canonical tree nesting Composite, Sequence, Scalar and
Bytes nodes. -/
def canonW : PyVal :=
  .pdict [("a", .plist [.pint 1, bytesNode [0, 1]]), ("b", .pstr "x")]

theorem foldl_historyStep (acc ps : List TrajPoint) :
    List.foldl historyStep acc ps = acc ++ ps := by
  induction ps generalizing acc with
  | nil => simp
  | cons p rest ih => simp [historyStep, ih]

theorem historyAfter_eq (ps : List TrajPoint) : historyAfter ps = ps := by
  simp [historyAfter, foldl_historyStep]

/-- C2 (amended): the trajectory history is append-only and unbounded:
after a run of accepted navigation records it holds every accepted point
in acceptance order, and the next accepted record is appended at the end;
no point is ever evicted and no maximum length is enforced. -/
theorem c2_history_unbounded (ps : List TrajPoint) (p : TrajPoint) :
    historyAfter ps = ps ∧ historyStep (historyAfter ps) p = ps ++ [p] := by
  refine ⟨historyAfter_eq ps, ?_⟩
  rw [historyAfter_eq]
  rfl

/-- C2 (counterexample): after 200 accepted navigation records the history
holds 200 points, more than the path cap of 100, and the very first
accepted point is still present, so no eviction at any cap below 200 ever
happened. -/
theorem c2_counterexample :
    (historyAfter (mkPts 200)).length = 200 ∧
    100 < (historyAfter (mkPts 200)).length ∧
    mkPt 0 ∈ historyAfter (mkPts 200) := by
  rw [historyAfter_eq]
  refine ⟨by simp [mkPts], by simp [mkPts], ?_⟩
  simp only [mkPts, List.mem_map]
  exact ⟨0, by simp, rfl⟩

/-- C9: in both time-windowed extraction operations a bound given as 0 is
forwarded to the record source exactly as an absent bound is (the code
forwards a bound only when it is truthy), so an `[s, 0]` window behaves
as `[s, +unbounded]` rather than producing an empty result. -/
theorem c9_zero_bound_same_as_absent (recs : List BagRecord) (topic : String)
    (s? e? : Option Rat) :
    extract_topic recs topic s? (some 0) = extract_topic recs topic s? none ∧
    extract_topic recs topic (some 0) e? = extract_topic recs topic none e? ∧
    extract_all_topics_for recs topic s? (some 0) =
      extract_all_topics_for recs topic s? none ∧
    extract_all_topics_for recs topic (some 0) e? =
      extract_all_topics_for recs topic none e? := by
  have h0 : truthyTime (some 0) = none := by simp [truthyTime]
  refine ⟨?_, ?_, ?_, ?_⟩ <;>
    simp [extract_topic, extract_all_topics_for, h0, truthyTime]

theorem pyInt_of_nonneg (q : Rat) (hq : 0 ≤ q) : pyInt q = ⌊q⌋ := by
  simp [pyInt, hq]

/-- C7 (amended): for every source-native time value whose seconds and
nanoseconds components are nonnegative, timestamp normalization returns
`floor(seconds*1000 + nanoseconds/1e6)` milliseconds; on negative times
the code's `int(...)` truncates toward zero instead of flooring. -/
theorem c7_timestamp_floor_on_nonneg (t : RosTime)
    (hs : 0 ≤ rosSeconds t) (hn : 0 ≤ rosNanos t) :
    ros_time_to_timestamp t =
      ⌊rosSeconds t * 1000 + rosNanos t / 1000000⌋ := by
  cases t with
  | timeObj s ns =>
      simp only [rosSeconds, rosNanos] at hs hn ⊢
      have hq : (0 : Rat) ≤ s * 1000 + ns / 1000000 :=
        add_nonneg (mul_nonneg hs (by norm_num)) (div_nonneg hn (by norm_num))
      simp [ros_time_to_timestamp, pyInt_of_nonneg _ hq]
  | timeDict s? ns? =>
      simp only [rosSeconds, rosNanos] at hs hn ⊢
      have hq : (0 : Rat) ≤ s?.getD 0 * 1000 + ns?.getD 0 / 1000000 :=
        add_nonneg (mul_nonneg hs (by norm_num)) (div_nonneg hn (by norm_num))
      simp [ros_time_to_timestamp, pyInt_of_nonneg _ hq]
  | timeFloat s =>
      simp only [rosSeconds, rosNanos] at hs hn ⊢
      have hq : (0 : Rat) ≤ s * 1000 := mul_nonneg hs (by norm_num)
      simp [ros_time_to_timestamp, pyInt_of_nonneg _ hq]

theorem c7_witness :
    0 ≤ rosSeconds (.timeFloat (3 / 2)) ∧ 0 ≤ rosNanos (.timeFloat (3 / 2)) ∧
    ros_time_to_timestamp (.timeFloat (3 / 2)) =
      ⌊rosSeconds (.timeFloat (3 / 2)) * 1000 +
        rosNanos (.timeFloat (3 / 2)) / 1000000⌋ :=
  ⟨by norm_num [rosSeconds], by norm_num [rosNanos],
   c7_timestamp_floor_on_nonneg (.timeFloat (3 / 2))
     (by norm_num [rosSeconds]) (by norm_num [rosNanos])⟩

/-- C7 (counterexample): at the seconds-as-float time -0.00048828125
(exactly representable, all steps exact), the code returns
`int(-0.48828125) = 0` milliseconds while the claimed floor is -1. -/
theorem c7_counterexample :
    ros_time_to_timestamp (.timeFloat (-(1 / 2048))) = 0 ∧
    ⌊rosSeconds (.timeFloat (-(1 / 2048))) * 1000 +
      rosNanos (.timeFloat (-(1 / 2048))) / 1000000⌋ = -1 ∧
    (0 : Int) ≠ -1 := by
  refine ⟨?_, ?_, by decide⟩
  · have h : ¬ (0 : Rat) ≤ -(1 / 2048) * 1000 := by norm_num
    simp only [ros_time_to_timestamp, pyInt, h, if_false]
    norm_num
  · simp only [rosSeconds, rosNanos]
    norm_num

theorem nodup_of_firstDup_eq_none (ns : List String) (h : firstDup ns = none) :
    ns.Nodup := by
  induction ns with
  | nil => exact List.nodup_nil
  | cons n rest ih =>
      unfold firstDup at h
      by_cases hc : n ∈ rest
      · simp [hc] at h
      · exact List.nodup_cons.mpr ⟨hc, ih (by simpa [hc] using h)⟩

/-- C1: for every frame layout in which some signal's bit span exceeds the
frame's bit capacity, or in which two signals declare the same name, the
signal-table decode fails with a `LayoutError` and produces no decoded
frame. -/
theorem c1_layout_error_no_partial_frame (l : FrameLayout)
    (h : (∃ s ∈ l.signals, 8 * l.length < s.startBit + s.length) ∨
         ¬ (l.signals.map (fun s => s.name)).Nodup) :
    ∀ dfs, decode l ≠ .ok dfs := by
  intro dfs hok
  unfold decode at hok
  cases hfind : l.signals.find? (fun s => decide (8 * l.length < s.startBit + s.length)) with
  | some s => rw [hfind] at hok; exact Except.noConfusion hok
  | none =>
      rw [hfind] at hok
      cases hdup : firstDup (l.signals.map fun s => s.name) with
      | some n => rw [hdup] at hok; exact Except.noConfusion hok
      | none =>
          rcases h with h1 | h2
          · obtain ⟨s, hs, hlt⟩ := h1
            have hnone := List.find?_eq_none.mp hfind s hs
            simp at hnone
            omega
          · exact h2 (nodup_of_firstDup_eq_none _ hdup)

theorem c1_witness :
    ((∃ s ∈ badLayout.signals, 8 * badLayout.length < s.startBit + s.length) ∨
      ¬ (badLayout.signals.map (fun s => s.name)).Nodup) ∧
    ∀ dfs, decode badLayout ≠ .ok dfs :=
  ⟨Or.inl (by decide),
   c1_layout_error_no_partial_frame badLayout (Or.inl (by decide))⟩

theorem quatOfEuler_normSq_eq_one (r p y : Real) :
    quatNormSq (quatOfEuler r p y) = 1 := by
  have hr := Real.sin_sq_add_cos_sq (r * 0.5)
  have hp := Real.sin_sq_add_cos_sq (p * 0.5)
  have hy := Real.sin_sq_add_cos_sq (y * 0.5)
  dsimp only [quatNormSq, quatOfEuler]
  linear_combination
    (Real.sin (p * 0.5) ^ 2 + Real.cos (p * 0.5) ^ 2) *
        (Real.sin (y * 0.5) ^ 2 + Real.cos (y * 0.5) ^ 2) * hr +
      (Real.sin (y * 0.5) ^ 2 + Real.cos (y * 0.5) ^ 2) * hp + hy

/-- C5: for all roll/pitch/yaw angles (floats idealized as reals), the
quaternion built by the half-angle composition of
`convert_devpvt_to_odometry` has squared norm within 1e-9 of 1 (in the
exact model it is exactly 1). -/
theorem c5_quaternion_unit_norm (roll pitch yaw : Real) :
    |quatNormSq (quatOfEuler roll pitch yaw) - 1| ≤ 1e-9 := by
  rw [quatOfEuler_normSq_eq_one]
  norm_num

/-- C6: while processing the `k`-th accepted navigation record of a run, a
path snapshot is emitted exactly when `k` is a multiple of 10 (which also
guarantees at least 2 points exist); the emitted path is the suffix of the
accepted points holding at most the 100 most recent ones, in acceptance
order. -/
theorem c6_path_snapshot_every_tenth (ps : List TrajPoint) (k : Nat)
    (h1 : 1 ≤ k) (h2 : k ≤ ps.length) :
    ((emittedAt ps k).isSome ↔ k % 10 = 0) ∧
    (k % 10 = 0 →
      emittedAt ps k = some (lastN 100 (ps.take k)) ∧
      2 ≤ (historyAfter (ps.take k)).length ∧
      (lastN 100 (ps.take k)).length ≤ 100 ∧
      (ps.take k).take (k - 100) ++ lastN 100 (ps.take k) = ps.take k) := by
  have hlen : (ps.take k).length = k := by
    rw [List.length_take]
    omega
  have hemit : emittedAt ps k = stepEmit (ps.take k) := by
    rw [emittedAt, historyAfter_eq]
  by_cases hmod : k % 10 = 0
  · have h10 : 10 ≤ k := by
      rcases Nat.le_of_dvd (by omega) (Nat.dvd_of_mod_eq_zero hmod) with h
      exact h
    have hgen : generate_path (ps.take k) = some (lastN 100 (ps.take k)) := by
      rw [generate_path, if_neg]
      omega
    have hsome : emittedAt ps k = some (lastN 100 (ps.take k)) := by
      rw [hemit, stepEmit, hlen, if_pos hmod, hgen]
    refine ⟨by simp [hsome, hmod], fun _ => ⟨hsome, ?_, ?_, ?_⟩⟩
    · rw [historyAfter_eq, hlen]; omega
    · rw [lastN, List.length_drop]; omega
    · rw [lastN, hlen, List.take_append_drop]
  · refine ⟨?_, fun hk => absurd hk hmod⟩
    rw [hemit, stepEmit, hlen, if_neg hmod]
    simp [hmod]

theorem c6_witness :
    1 ≤ 10 ∧ 10 ≤ (mkPts 20).length ∧
    (((emittedAt (mkPts 20) 10).isSome ↔ 10 % 10 = 0) ∧
     (10 % 10 = 0 →
       emittedAt (mkPts 20) 10 = some (lastN 100 ((mkPts 20).take 10)) ∧
       2 ≤ (historyAfter ((mkPts 20).take 10)).length ∧
       (lastN 100 ((mkPts 20).take 10)).length ≤ 100 ∧
       ((mkPts 20).take 10).take (10 - 100) ++ lastN 100 ((mkPts 20).take 10) =
         (mkPts 20).take 10)) :=
  ⟨by decide, by simp [mkPts],
   c6_path_snapshot_every_tenth (mkPts 20) 10 (by decide) (by simp [mkPts])⟩

/-- C3 (counterexample): on a record whose first field read fails, the
extractor-side serializer raises (aborting that record's conversion)
instead of omitting the field and continuing. -/
theorem c3_counterexample :
    message_to_dict (.obj [("a", none), ("b", some (.pint 1))]) =
      .error .fieldAccess := by
  simp [message_to_dict, m2dSlots, Bind.bind, Except.bind]

/-- C3 (amended): the publisher-side serializer
`TestDataPublisher.message_to_dict` silently omits every field whose value
cannot be read and continues: the converted record is a composite whose
keys are exactly the readable slot names, in declaration order, and the
conversion is total. -/
theorem c3_publisher_omits_unreadable_fields
    (slots : List (String × Option PyVal)) :
    tdp_message_to_dict (.obj slots) = .pdict (tdpSlots slots) ∧
    (tdpSlots slots).map Prod.fst =
      (slots.filter (fun p => p.2.isSome)).map Prod.fst := by
  refine ⟨by simp [tdp_message_to_dict], ?_⟩
  induction slots with
  | nil => simp [tdpSlots]
  | cons p rest ih =>
      obtain ⟨n, v?⟩ := p
      cases v? with
      | none => simpa [tdpSlots] using ih
      | some v => simp [tdpSlots, ih]

theorem except_bind_ok_eq_map {α β : Type} (e : Except FieldAccessError α)
    (f : α → β) :
    (do let x ← e; Except.ok (f x)) = e.map f := by
  cases e <;> rfl

theorem m2dTopItems_eq_mapM (items : List PyVal) :
    m2dTopItems items = items.mapM
      (fun it => if hasSlots it || isDictV it || isBytesV it
                 then message_to_dict it else .ok it) := by
  rw [← List.mapM'_eq_mapM]
  induction items with
  | nil => simp only [m2dTopItems, List.mapM']; rfl
  | cons a as ih => simp only [m2dTopItems, List.mapM', ih]; split <;> rfl

theorem m2dInnerItems_eq_mapM (items : List PyVal) :
    m2dInnerItems items = items.mapM
      (fun it => if hasSlots it || isBytesV it
                 then message_to_dict it else .ok it) := by
  rw [← List.mapM'_eq_mapM]
  induction items with
  | nil => simp only [m2dInnerItems, List.mapM']; rfl
  | cons a as ih => simp only [m2dInnerItems, List.mapM', ih]; split <;> rfl

/-- C4 (amended): a top-level ordered collection serializes to a Sequence
in which every element that is a composite, a key-value mapping or a byte
sequence is serialized recursively and all other elements (scalars, but
also nested collections) pass through unchanged; an ordered collection
that is the value of a named field inside a composite record serializes
only its composite and byte-sequence elements — mapping (and nested
collection) elements pass through unchanged. -/
theorem c4_sequence_element_serialization (items : List PyVal)
    (slotName : String) :
    message_to_dict (.plist items) =
      (items.mapM (fun it => if hasSlots it || isDictV it || isBytesV it
                             then message_to_dict it else .ok it)).map .plist ∧
    message_to_dict (.obj [(slotName, some (.plist items))]) =
      (items.mapM (fun it => if hasSlots it || isBytesV it
                             then message_to_dict it else .ok it)).map
        (fun xs => .pdict [(slotName, .plist xs)]) := by
  constructor
  · rw [show message_to_dict (.plist items) =
        (do
          let xs ← m2dTopItems items
          Except.ok (.plist xs)) from by simp [message_to_dict]]
    rw [m2dTopItems_eq_mapM, except_bind_ok_eq_map]
  · rw [show message_to_dict (.obj [(slotName, some (.plist items))]) =
        (do
          let xs ← m2dInnerItems items
          Except.ok (.pdict [(slotName, .plist xs)])) from ?_]
    · rw [m2dInnerItems_eq_mapM, except_bind_ok_eq_map]
    · simp only [message_to_dict, m2dSlots, m2dSlotValue]
      cases m2dInnerItems items <;> rfl

/-- C4 (counterexample): inside a composite record, a key-value mapping
appearing as an element of a list field passes through raw — its inner
byte string is not tagged — although the claim requires mapping elements
to be serialized to their canonical form, which here differs. -/
theorem c4_counterexample :
    message_to_dict (.obj [("a", some (.plist [.pdict [("k", .pbytes [0])]]))]) =
      .ok (.pdict [("a", .plist [.pdict [("k", .pbytes [0])]])]) ∧
    message_to_dict (.pdict [("k", .pbytes [0])]) =
      .ok (.pdict [("k", bytesNode [0])]) ∧
    PyVal.pdict [("k", PyVal.pbytes [0])] ≠ PyVal.pdict [("k", bytesNode [0])] := by
  refine ⟨?_, ?_, ?_⟩
  · simp [message_to_dict, m2dSlots, m2dSlotValue, m2dInnerItems,
      hasSlots, isBytesV, isDictV, isListV, Bind.bind, Except.bind]
  · simp [message_to_dict, m2dDictEntries,
      hasSlots, isBytesV, isDictV, isListV, Bind.bind, Except.bind]
  · simp [bytesNode]

theorem m2dTopItems_canonical (its : List PyVal)
    (hm : ∀ v ∈ its, message_to_dict v = .ok v) :
    m2dTopItems its = .ok its := by
  induction its with
  | nil => simp [m2dTopItems]
  | cons a as ih =>
      have hma := hm a (by simp)
      have h2 := ih (fun v hv => hm v (by simp [hv]))
      simp [m2dTopItems, hma, h2, Bind.bind, Except.bind]

theorem m2dDictEntries_canonical (es : List (String × PyVal))
    (hm : ∀ p ∈ es, message_to_dict p.2 = .ok p.2) :
    m2dDictEntries es = .ok es := by
  induction es with
  | nil => simp [m2dDictEntries]
  | cons p rest ih =>
      obtain ⟨k, v⟩ := p
      have hmv := hm (k, v) (by simp)
      have h2 := ih (fun q hq => hm q (by simp [hq]))
      simp at hmv
      simp [m2dDictEntries, hmv, h2, Bind.bind, Except.bind]

/-- C8: the serializer is idempotent on its own output: serializing a
canonical tree (any nesting of Composite, Sequence, Scalar and Bytes
nodes) again, as an opaque record, returns the same tree. -/
theorem c8_serializer_idempotent (t : PyVal) (h : IsCanonical t) :
    message_to_dict t = .ok t := by
  induction h with
  | scalarInt n => simp [message_to_dict]
  | scalarFloat q => simp [message_to_dict]
  | scalarStr s => simp [message_to_dict]
  | scalarBool b => simp [message_to_dict]
  | scalarNone => simp [message_to_dict]
  | bytes bs =>
      simp [bytesNode, message_to_dict, m2dDictEntries,
        isDictV, isListV, isBytesV, hasSlots, Bind.bind, Except.bind]
  | seq items hmem ih =>
      have := m2dTopItems_canonical items ih
      simp [message_to_dict, this, Bind.bind, Except.bind]
  | comp entries hmem ih =>
      have := m2dDictEntries_canonical entries ih
      simp [message_to_dict, this, Bind.bind, Except.bind]

theorem c8_witness : IsCanonical canonW ∧ message_to_dict canonW = .ok canonW := by
  have h1 : IsCanonical (.pint 1) := .scalarInt 1
  have h2 : IsCanonical (bytesNode [0, 1]) := .bytes [0, 1]
  have hl : IsCanonical (.plist [.pint 1, bytesNode [0, 1]]) := by
    refine .seq _ ?_
    intro v hv
    simp only [List.mem_cons, List.mem_singleton, List.not_mem_nil, or_false] at hv
    rcases hv with rfl | rfl
    · exact h1
    · exact h2
  have hc : IsCanonical canonW := by
    refine .comp _ ?_
    intro p hp
    simp only [canonW, List.mem_cons, List.mem_singleton, List.not_mem_nil, or_false] at hp
    rcases hp with rfl | rfl
    · exact hl
    · exact .scalarStr "x"
  exact ⟨hc, c8_serializer_idempotent canonW hc⟩

theorem getattrOr_default_of_not_hasattr (msg : PyVal) (name : String)
    (d : PyVal) (h : hasattrV msg name = false) : getattrOr msg name d = d := by
  cases msg with
  | obj slots =>
      simp only [hasattrV, List.any_eq_false] at h
      rw [getattrOr]
      cases hfind : slots.find? (fun p => p.1 == name) with
      | none => rfl
      | some p =>
          obtain ⟨n, v?⟩ := p
          have hp := List.find?_some hfind
          have hmem := List.mem_of_find?_eq_some hfind
          simp at hp
          cases v? with
          | none => rfl
          | some x =>
              have := h (n, some x) hmem
              simp [hp] at this
  | pint n => rfl
  | pfloat q => rfl
  | pstr s => rfl
  | pbool b => rfl
  | pnone => rfl
  | pbytes bs => rfl
  | plist items => rfl
  | pdict entries => rfl

/-- C10 (amended): a GPS point is emitted only when both `latitude` and
`longitude` are readable (otherwise the record is skipped silently); on an
emitted point a missing `altitude` defaults to 0.0; a record without a
`status` attribute gets an empty status object (not status=-1/service=0);
a record whose `status` object lacks the inner fields gets the defaults
status=-1 and service=0. -/
theorem c10_gps_point_defaults (ts : Int) (msg : PyVal) :
    ((hasattrV msg "latitude" && hasattrV msg "longitude") = false →
      extract_navsatfix_point ts msg = none) ∧
    (hasattrV msg "latitude" = true → hasattrV msg "longitude" = true →
     hasattrV msg "altitude" = false → hasattrV msg "status" = false →
      extract_navsatfix_point ts msg =
        some (.pdict
          [("timestamp", .pint ts),
           ("latitude", getattrRaw msg "latitude"),
           ("longitude", getattrRaw msg "longitude"),
           ("altitude", .pfloat 0),
           ("status", .pdict [])])) ∧
    (hasattrV msg "latitude" = true → hasattrV msg "longitude" = true →
     hasattrV msg "status" = true →
     hasattrV (getattrRaw msg "status") "status" = false →
     hasattrV (getattrRaw msg "status") "service" = false →
      extract_navsatfix_point ts msg =
        some (.pdict
          [("timestamp", .pint ts),
           ("latitude", getattrRaw msg "latitude"),
           ("longitude", getattrRaw msg "longitude"),
           ("altitude", getattrOr msg "altitude" (.pfloat 0)),
           ("status", .pdict [("status", .pint (-1)), ("service", .pint 0)])])) := by
  refine ⟨?_, ?_, ?_⟩
  · intro h
    rw [extract_navsatfix_point, if_neg]
    simp [h]
  · intro h1 h2 h3 h4
    rw [extract_navsatfix_point, if_pos (by simp [h1, h2])]
    rw [getattrOr_default_of_not_hasattr msg "altitude" _ h3]
    simp [h4]
  · intro h1 h2 h3 h4 h5
    rw [extract_navsatfix_point, if_pos (by simp [h1, h2])]
    rw [getattrOr_default_of_not_hasattr _ "status" _ h4]
    rw [getattrOr_default_of_not_hasattr _ "service" _ h5]
    simp [h3]

theorem c10_witness :
    (hasattrV (.obj [("latitude", some (.pfloat 1)), ("longitude", some (.pfloat 2))]) "latitude" = true) ∧
    (hasattrV (.obj [("latitude", some (.pfloat 1)), ("longitude", some (.pfloat 2))]) "longitude" = true) ∧
    (hasattrV (.obj [("latitude", some (.pfloat 1)), ("longitude", some (.pfloat 2))]) "altitude" = false) ∧
    (hasattrV (.obj [("latitude", some (.pfloat 1)), ("longitude", some (.pfloat 2))]) "status" = false) ∧
    extract_navsatfix_point 7 (.obj [("latitude", some (.pfloat 1)), ("longitude", some (.pfloat 2))]) =
      some (.pdict
        [("timestamp", .pint 7),
         ("latitude", getattrRaw (.obj [("latitude", some (.pfloat 1)), ("longitude", some (.pfloat 2))]) "latitude"),
         ("longitude", getattrRaw (.obj [("latitude", some (.pfloat 1)), ("longitude", some (.pfloat 2))]) "longitude"),
         ("altitude", .pfloat 0),
         ("status", .pdict [])]) :=
  ⟨by simp [hasattrV], by simp [hasattrV], by simp [hasattrV], by simp [hasattrV],
   (c10_gps_point_defaults 7 _).2.1 (by simp [hasattrV]) (by simp [hasattrV])
     (by simp [hasattrV]) (by simp [hasattrV])⟩

/-- C10 (counterexample): a record exposing latitude and longitude but no
`status` attribute is emitted with an empty status object, not with the
claimed defaults status=-1 and service=0. -/
theorem c10_counterexample :
    extract_navsatfix_point 0 (.obj [("latitude", some (.pfloat 1)), ("longitude", some (.pfloat 2))]) =
      some (.pdict
        [("timestamp", .pint 0),
         ("latitude", .pfloat 1),
         ("longitude", .pfloat 2),
         ("altitude", .pfloat 0),
         ("status", .pdict [])]) ∧
    PyVal.pdict ([] : List (String × PyVal)) ≠
      PyVal.pdict [("status", .pint (-1)), ("service", .pint 0)] := by
  constructor
  · simp [extract_navsatfix_point, hasattrV, getattrRaw, getattrOr]
  · simp
